import Mathlib

/-!
# Message-passing core of `local_actor`

A shallow embedding of `libcaf_core/src/local_actor.cpp`: request ids,
request timeouts, monitoring, exit signals, cleanup and the pre-start cache.

State is passed explicitly.  Every operation returns the new actor state
together with the list of externally visible effects it performed, in
program order.  Collaborators whose code is not part of the embedded file
(message ids, the mailbox queues, the bouncer, the monitorable base class)
are modelled from the specification and marked as such.
-/

namespace caf

/-! ## Data model -/

/-- Modelled from the spec: `actor_addr`, the actor identity of §3, a stable,
comparable handle. -/
abbrev actor_addr := Nat

/-- Modelled from the spec: `message_priority`, the priority class of an
envelope, normal or high. -/
inductive message_priority where
  | normal
  | high
deriving DecidableEq, Repr

/-- Modelled from the spec: `error`, the exit reason of §3, a tagged value. -/
structure error where
  code : Nat
deriving DecidableEq, Repr

/-- Modelled from the spec: the header declaring `message_id` is missing.
Spec §3 describes a 64-bit-range counter with one reserved bit marking
"high priority" and another marking "is a response"; the positions of the
two reserved bits are not stated, so they are parameters. -/
structure id_layout where
  high_priority_bit : Nat
  response_bit : Nat
deriving DecidableEq, Repr

/-- A layout is well formed when both reserved bits lie inside the 64-bit
word and are different bits. -/
def id_layout.wf (L : id_layout) : Prop :=
  L.high_priority_bit < 64 ∧ L.response_bit < 64 ∧
    L.high_priority_bit ≠ L.response_bit

instance (L : id_layout) : Decidable L.wf := by
  unfold id_layout.wf; infer_instance

/-- Modelled from the spec: `message_id`, the correlation id of §3, a 64-bit
word. -/
structure message_id where
  value_ : Nat
deriving DecidableEq, Repr

/-- Modelled from the spec: `message_id::operator++`, the pre-increment of
the 64-bit counter word. -/
def message_id.incr (m : message_id) : message_id :=
  ⟨(m.value_ + 1) % 2 ^ 64⟩

/-- Modelled from the spec: `message_id::with_high_priority`, sets the
reserved high-priority bit. -/
def message_id.with_high_priority (L : id_layout) (m : message_id) : message_id :=
  ⟨m.value_ ||| 2 ^ L.high_priority_bit⟩

/-- Modelled from the spec: `message_id::is_high_priority`, tests the
reserved high-priority bit. -/
def message_id.is_high_priority (L : id_layout) (m : message_id) : Bool :=
  m.value_.testBit L.high_priority_bit

/-- Modelled from the spec: `message_id::is_response`, tests the reserved
response bit. -/
def message_id.is_response (L : id_layout) (m : message_id) : Bool :=
  m.value_.testBit L.response_bit

/-- Modelled from the spec: `message_id::response_id`, the fixed bit
transformation that derives the response form of an id: it sets the
reserved response bit. -/
def message_id.response_id (L : id_layout) (m : message_id) : message_id :=
  ⟨m.value_ ||| 2 ^ L.response_bit⟩

/-- Modelled from the spec: `message_id::request_id`, the counter part of
an id, that is the word with both reserved bits cleared. -/
def message_id.request_id (L : id_layout) (m : message_id) : Nat :=
  m.value_ - (m.value_ &&& 2 ^ L.high_priority_bit)
           - (m.value_ &&& 2 ^ L.response_bit)

/-- Modelled from the spec: `message_id::is_request`.  An envelope expects a
reply when its id carries a counter value and is not itself a response. -/
def message_id.is_request (L : id_layout) (m : message_id) : Bool :=
  decide (m.request_id L ≠ 0) && !m.is_response L

/-- Modelled from the spec: `make_message_id()`, the id of an ordinary
asynchronous message: counter zero, no reserved bit set. -/
def make_message_id : message_id := ⟨0⟩

/-- Modelled from the spec: ids are compared as 64-bit words. -/
instance : LT message_id := ⟨fun a b => a.value_ < b.value_⟩

instance (a b : message_id) : Decidable (a < b) :=
  inferInstanceAs (Decidable (a.value_ < b.value_))

/-- Modelled from the spec: `duration`.  An interval is valid when it is
set and positive; zero or unset is not valid. -/
structure duration where
  is_set : Bool
  count : Nat
deriving DecidableEq, Repr

/-- Modelled from the spec: `duration::valid`. -/
def duration.valid (d : duration) : Bool :=
  d.is_set && decide (0 < d.count)

/-- Modelled from the spec: `sec`, the status codes; the embedded file uses
only `sec::request_timeout`, the synthetic "request timed out" error. -/
inductive sec where
  | request_timeout
deriving DecidableEq, Repr

/-- Modelled from the spec: `exit_msg`, the control payload of an exit
signal, built in the source as `exit_msg{address(), reason}`. -/
structure exit_msg where
  source : actor_addr
  reason : error
deriving DecidableEq, Repr

/-- Modelled from the spec: `message`, the payload of an envelope, as a closed
tagged variant. -/
inductive message where
  | user (content : Nat)
  | of_sec (code : sec)
  | of_exit_msg (x : exit_msg)
deriving DecidableEq, Repr

/-- Modelled from the spec: `mailbox_element`, the message envelope of §3:
nullable sender, correlation id, payload. -/
structure mailbox_element where
  sender : Option actor_addr
  mid : message_id
  content : message
deriving DecidableEq, Repr

/-- Modelled from the spec: kind of a `default_attachable`; the source names
the kind `default_attachable::monitor`. -/
inductive observe_type where
  | monitor
  | link
deriving DecidableEq, Repr

/-- Modelled from the spec: `default_attachable`, the monitor registration of
§3 binding `observer` to the `observed` target. -/
structure attachable where
  observed : actor_addr
  observer : actor_addr
  type : observe_type
deriving DecidableEq, Repr

/-- Modelled from the spec: `default_attachable::observe_token`, built in the
source as `observe_token{address(), default_attachable::monitor}`. -/
structure observe_token where
  observer : actor_addr
  type : observe_type
deriving DecidableEq, Repr

/-- Modelled from the spec: `default_attachable::make_monitor(observed,
observer)`, the registration that `monitor` attaches. -/
def default_attachable.make_monitor (observed observer : actor_addr) : attachable :=
  ⟨observed, observer, observe_type.monitor⟩

/-- Modelled from the spec: `default_attachable::matches`; a registration
matches a token when it is bound to the same observer with the same kind. -/
def attachable.is_match (tk : observe_token) (a : attachable) : Bool :=
  decide (a.observer = tk.observer) && decide (a.type = tk.type)

/-- Externally visible effects, recorded in program order. -/
inductive effect where
  | mailbox_closed
  | bounced (receiver : Option actor_addr) (mid : message_id) (reason : error)
  | unregistered (who : actor_addr)
  | actor_exited (a : attachable) (reason : error)
  | fail_state_recorded (reason : error)
  | delayed_send (d : duration) (sender receiver : actor_addr)
      (mid : message_id) (content : message)
  | enqueued (target : actor_addr) (e : mailbox_element)
deriving DecidableEq, Repr

/-! ## Mailbox -/

/-- Modelled from the spec: the mailbox policy object `mpol`.  Its class is
missing, so the functions the code calls on it are fields: `id_of` selects the
queue of an envelope, `task_size` is its accounted size, `quantum q x` is the
credit queue `q` receives for a round of requested size `x` (`true` stands
for the high-priority queue). -/
structure mailbox_policy where
  default_queue_index : Nat
  id_of : mailbox_element → Nat
  task_size : mailbox_element → Nat
  quantum : Bool → Nat → Nat

/-- Modelled from the spec: `drr_cached_queue`, one queue of the mailbox: the
active list, the pre-start cache, the deficit counter and the accumulated
task size. -/
structure drr_cached_queue where
  list_ : List mailbox_element
  cache_ : List mailbox_element
  deficit_ : Nat
  total_task_size_ : Nat
deriving DecidableEq, Repr

/-- Modelled from the spec: `drr_cached_queue::inc_total_task_size`, adds to
the accumulated task size of the queue. -/
def drr_cached_queue.inc_total_task_size (q : drr_cached_queue) (x : Nat) :
    drr_cached_queue :=
  { q with total_task_size_ := q.total_task_size_ + x }

/-- Modelled from the spec: `cache().push_back(ptr)`, appends at the back of
the cache, so that cached envelopes keep their arrival order. -/
def drr_cached_queue.cache_push_back (q : drr_cached_queue) (e : mailbox_element) :
    drr_cached_queue :=
  { q with cache_ := q.cache_ ++ [e] }

/-- Modelled from the spec: the dequeue step of a round.  Envelopes are
taken from the front of the active list while the deficit covers their task
size.  Returns the taken envelopes, the remaining list and the remaining
deficit. -/
def drr_take (ts : mailbox_element → Nat) :
    Nat → List mailbox_element → List mailbox_element × List mailbox_element × Nat
  | d, [] => ([], [], d)
  | d, e :: es =>
    if ts e ≤ d then
      let r := drr_take ts (d - ts e) es
      (e :: r.1, r.2.1, r.2.2)
    else ([], e :: es, d)

/-- Modelled from the spec: `drr_cached_queue::new_round`.  The deficit grows
by the quantum, envelopes of the active (consumer-visible) list are handed to
the consumer while the deficit covers them, and their size leaves the
accumulated task size.  The cache is held until explicitly released and is
not visited.  The result tells whether at least one envelope was consumed. -/
def drr_cached_queue.new_round {α : Type} (ts : mailbox_element → Nat)
    (q : drr_cached_queue) (quantum : Nat) (consumer : mailbox_element → List α) :
    Bool × List α × drr_cached_queue :=
  let r := drr_take ts (q.deficit_ + quantum) q.list_
  (!r.1.isEmpty, r.1.flatMap consumer,
    { q with list_ := r.2.1, deficit_ := r.2.2,
             total_task_size_ := q.total_task_size_ - (r.1.map ts).sum })

/-- Modelled from the spec: the mailbox of §3, a closed flag and the two
queues. -/
structure mailbox where
  closed_ : Bool
  default_queue : drr_cached_queue
  high_priority_queue : drr_cached_queue
deriving DecidableEq, Repr

/-- Modelled from the spec: `mailbox_.close()`, the one-way transition to
closed. -/
def mailbox.close (m : mailbox) : mailbox :=
  { m with closed_ := true }

/-- Modelled from the spec: `mailbox_.queue().new_round`, one
deficit-round-robin round over both queues. -/
def mailbox.new_round {α : Type} (p : mailbox_policy) (m : mailbox) (quantum : Nat)
    (consumer : mailbox_element → List α) : Bool × List α × mailbox :=
  let a := m.default_queue.new_round p.task_size (p.quantum false quantum) consumer
  let b := m.high_priority_queue.new_round p.task_size (p.quantum true quantum) consumer
  (a.1 || b.1, a.2.1 ++ b.2.1,
    { m with default_queue := a.2.2, high_priority_queue := b.2.2 })

/-- The loop `while (mailbox_.queue().new_round(1000, bounce)) ;`.  The loop
has no bound in the program; `fuel` bounds the number of rounds of the model
and `none` means the fuel ran out before a round consumed nothing. -/
def mailbox.drain {α : Type} (p : mailbox_policy) (consumer : mailbox_element → List α) :
    Nat → mailbox → Option (List α × mailbox)
  | 0, _ => none
  | fuel + 1, m =>
    let r := m.new_round p 1000 consumer
    if r.1 then
      (mailbox.drain p consumer fuel r.2.2).map (fun t => (r.2.1 ++ t.1, t.2))
    else some (r.2.1, r.2.2)

/-- The envelopes of the active lists of both queues. -/
def mailbox.active (m : mailbox) : List mailbox_element :=
  m.default_queue.list_ ++ m.high_priority_queue.list_

/-- The envelopes one round of quantum 1000 takes from the two queues. -/
def mailbox.round_taken (p : mailbox_policy) (m : mailbox) : List mailbox_element :=
  (drr_take p.task_size (m.default_queue.deficit_ + p.quantum false 1000)
      m.default_queue.list_).1
    ++ (drr_take p.task_size (m.high_priority_queue.deficit_ + p.quantum true 1000)
      m.high_priority_queue.list_).1

/-- The mailbox after one round of quantum 1000. -/
def mailbox.round_next (p : mailbox_policy) (m : mailbox) : mailbox :=
  (m.new_round p 1000 (fun _ => ([] : List Unit))).2.2

/-- The credit of one round of quantum 1000 covers the task size of every
envelope in the active lists. -/
def mailbox_policy.covers (p : mailbox_policy) (m : mailbox) : Prop :=
  (∀ e ∈ m.default_queue.list_, p.task_size e ≤ p.quantum false 1000) ∧
  (∀ e ∈ m.high_priority_queue.list_, p.task_size e ≤ p.quantum true 1000)

instance (p : mailbox_policy) (m : mailbox) : Decidable (p.covers m) := by
  unfold mailbox_policy.covers; infer_instance

/-- Modelled from the spec: `detail::sync_request_bouncer`.  For an envelope
that expected a reply it sends a bounce notification to the sender, tagged
with the response form of the id and carrying the reason. -/
def sync_request_bouncer (L : id_layout) (rsn : error) (e : mailbox_element) :
    List effect :=
  if e.mid.is_request L then [effect.bounced e.sender (e.mid.response_id L) rsn]
  else []

/-! ## Actors -/

/-- Modelled from the spec: state of the `monitorable_actor` base: address,
registration list, final reason, and the registered and cleaned-up flags
(the source reads `is_cleaned_up_flag` in `on_destroy`). -/
structure monitorable_actor where
  address_ : actor_addr
  attachables_ : List attachable
  fail_state_ : Option error
  is_cleaned_up_flag : Bool
  is_registered_flag : Bool
deriving DecidableEq, Repr

/-- Modelled from the spec: `strong_actor_ptr`, a possibly null pointer to an
actor. -/
abbrev strong_actor_ptr := Option monitorable_actor

/-- Modelled from the spec: `monitorable_actor::attach`.  On a live target
the registration joins the list; on a target that has completed cleanup it
fires at once with the recorded reason. -/
def monitorable_actor.attach (t : monitorable_actor) (a : attachable) :
    monitorable_actor × List effect :=
  if t.is_cleaned_up_flag then
    (t, [effect.actor_exited a (t.fail_state_.getD ⟨0⟩)])
  else ({ t with attachables_ := a :: t.attachables_ }, [])

/-- Modelled from the spec: `monitorable_actor::detach`.  Removes a matching
registration without firing it; no match is a no-op. -/
def monitorable_actor.detach (t : monitorable_actor) (tk : observe_token) :
    monitorable_actor :=
  { t with attachables_ := t.attachables_.eraseP (attachable.is_match tk) }

/-- Modelled from the spec: `unregister_from_system`, the unregistration
from the directory, performed once per registered actor. -/
def monitorable_actor.unregister_from_system (t : monitorable_actor) :
    monitorable_actor × List effect :=
  if t.is_registered_flag then
    ({ t with is_registered_flag := false }, [effect.unregistered t.address_])
  else (t, [])

/-- Modelled from the spec: `monitorable_actor::cleanup`.  On the first call
every pending registration is fired once with the reason, the list is
cleared and the reason is recorded as the terminal state; a later call is a
no-op.  The result tells whether this call did the work. -/
def monitorable_actor.cleanup (t : monitorable_actor) (reason : error) :
    Bool × monitorable_actor × List effect :=
  if t.is_cleaned_up_flag then (false, t, [])
  else
    (true,
      { t with attachables_ := [], fail_state_ := some reason,
               is_cleaned_up_flag := true },
      t.attachables_.map (fun a => effect.actor_exited a reason)
        ++ [effect.fail_state_recorded reason])

/-- The last two steps of `local_actor::cleanup` on the base state:
`unregister_from_system()` followed by `monitorable_actor::cleanup`. -/
def monitorable_actor.unregister_and_cleanup (t : monitorable_actor) (reason : error) :
    monitorable_actor × List effect :=
  ((t.unregister_from_system.1.cleanup reason).2.1,
    t.unregister_from_system.2 ++ (t.unregister_from_system.1.cleanup reason).2.2)

/-- State of a `local_actor`. -/
structure local_actor extends monitorable_actor where
  last_request_id_ : message_id
  mailbox_ : mailbox
deriving DecidableEq, Repr

/-- Embeds `local_actor::request_response_timeout`. -/
def local_actor.request_response_timeout (L : id_layout) (self : local_actor)
    (d : duration) (mid : message_id) : local_actor × List effect :=
  if !d.valid then (self, [])
  else
    (self, [effect.delayed_send d self.address_ self.address_ (mid.response_id L)
              (message.of_sec sec.request_timeout)])

/-- Embeds `local_actor::monitor`. -/
def local_actor.monitor (self : local_actor) (ptr : strong_actor_ptr) :
    strong_actor_ptr × List effect :=
  match ptr with
  | none => (none, [])
  | some t =>
    let r := t.attach (default_attachable.make_monitor t.address_ self.address_)
    (some r.1, r.2)

/-- Embeds `local_actor::demonitor`; `ptr` is `actor_cast<strong_actor_ptr>(whom)`. -/
def local_actor.demonitor (actor_cast : actor_addr → strong_actor_ptr)
    (self : local_actor) (whom : actor_addr) : strong_actor_ptr × List effect :=
  let ptr := actor_cast whom
  match ptr with
  | some t =>
    let tk : observe_token := ⟨self.address_, observe_type.monitor⟩
    (some (t.detach tk), [])
  | none => (none, [])

/-- Embeds `local_actor::new_request_id`. -/
def local_actor.new_request_id (L : id_layout) (self : local_actor)
    (mp : message_priority) : message_id × local_actor :=
  let self1 := { self with last_request_id_ := self.last_request_id_.incr }
  let result := self1.last_request_id_
  (if mp = message_priority.normal then result else result.with_high_priority L,
    self1)

/-- The ids returned by successive `new_request_id` calls on one actor, one
call per listed priority, in call order. -/
def local_actor.request_ids (L : id_layout) :
    local_actor → List message_priority → List message_id
  | _, [] => []
  | self, mp :: mps =>
    (self.new_request_id L mp).1 :: local_actor.request_ids L (self.new_request_id L mp).2 mps

/-- Modelled from the spec: `eq_impl(mid, sender, ctx, xs...)`, the normal
enqueue path of an actor: wraps the arguments in an envelope and enqueues it
on the target. -/
def monitorable_actor.eq_impl (t : monitorable_actor) (mid : message_id)
    (sender : Option actor_addr) (content : message) : List effect :=
  [effect.enqueued t.address_ ⟨sender, mid, content⟩]

/-- Embeds `local_actor::send_exit(const strong_actor_ptr&, error)`. -/
def local_actor.send_exit (self : local_actor) (dest : strong_actor_ptr)
    (reason : error) : local_actor × List effect :=
  match dest with
  | none => (self, [])
  | some t =>
    (self, t.eq_impl make_message_id none
             (message.of_exit_msg ⟨self.address_, reason⟩))

/-- Embeds `local_actor::send_exit(const actor_addr&, error)`. -/
def local_actor.send_exit_addr (actor_cast : actor_addr → strong_actor_ptr)
    (self : local_actor) (whom : actor_addr) (reason : error) :
    local_actor × List effect :=
  self.send_exit (actor_cast whom) reason

/-- Embeds `local_actor::cleanup`.  The result is `none` only when `fuel` does not
cover the rounds of the drain loop. -/
def local_actor.cleanup (L : id_layout) (p : mailbox_policy) (fuel : Nat)
    (self : local_actor) (fail_state : error) :
    Option (Bool × local_actor × List effect) :=
  let step1 : Option (mailbox × List effect) :=
    if !self.mailbox_.closed_ then
      (mailbox.drain p (sync_request_bouncer L fail_state) fuel
          self.mailbox_.close).map
        (fun r => (r.2, effect.mailbox_closed :: r.1))
    else some (self.mailbox_, [])
  step1.map (fun r1 =>
    let u := self.tomonitorable_actor.unregister_from_system
    let c := u.1.cleanup fail_state
    (true,
      { self with tomonitorable_actor := c.2.1, mailbox_ := r1.1 },
      r1.2 ++ u.2 ++ c.2.2))

/-- Embeds `local_actor::push_to_cache`. -/
def local_actor.push_to_cache (p : mailbox_policy) (self : local_actor)
    (ptr : mailbox_element) : local_actor :=
  let ts := p.task_size ptr
  if p.id_of ptr = p.default_queue_index then
    { self with mailbox_ := { self.mailbox_ with
        default_queue :=
          (self.mailbox_.default_queue.inc_total_task_size ts).cache_push_back ptr } }
  else
    { self with mailbox_ := { self.mailbox_ with
        high_priority_queue :=
          (self.mailbox_.high_priority_queue.inc_total_task_size ts).cache_push_back ptr } }

/-- Successive `push_to_cache` calls, one per envelope, in arrival order. -/
def local_actor.push_all_to_cache (p : mailbox_policy) (self : local_actor)
    (es : List mailbox_element) : local_actor :=
  es.foldl (fun a e => a.push_to_cache p e) self

/-- The bounce notification owed for a request envelope. -/
def bounce_of (L : id_layout) (rsn : error) (e : mailbox_element) : effect :=
  effect.bounced e.sender (e.mid.response_id L) rsn

/-- Tells whether an effect is a bounce notification. -/
def effect.is_bounce : effect → Bool
  | effect.bounced _ _ _ => true
  | _ => false

/-- Step of `cleanup` an effect belongs to: closing the mailbox, bouncing,
unregistering, then firing registrations and recording the reason. -/
def effect.phase : effect → Nat
  | effect.mailbox_closed => 0
  | effect.bounced _ _ _ => 1
  | effect.unregistered _ => 2
  | effect.actor_exited _ _ => 3
  | effect.fail_state_recorded _ => 3
  | effect.delayed_send _ _ _ _ _ => 4
  | effect.enqueued _ _ => 4

/-! ## Sample values -/

/-- A layout with the high-priority bit at position 61 and the response bit
at position 63. -/
def sample_layout : id_layout := ⟨61, 63⟩

/-- An empty queue. -/
def empty_queue : drr_cached_queue := ⟨[], [], 0, 0⟩

/-- A freshly spawned actor with address 7: registered, open empty mailbox,
no request issued yet. -/
def fresh_actor : local_actor :=
  { address_ := 7, attachables_ := [], fail_state_ := none,
    is_cleaned_up_flag := false, is_registered_flag := true,
    last_request_id_ := ⟨0⟩,
    mailbox_ := ⟨false, empty_queue, empty_queue⟩ }

/-- A policy that sends envelopes with a high-priority id to the second
queue, counts every envelope as one task and gives the high-priority queue
five times the credit of the default queue. -/
def sample_policy : mailbox_policy :=
  { default_queue_index := 0,
    id_of := fun e => if e.mid.is_high_priority sample_layout then 1 else 0,
    task_size := fun _ => 1,
    quantum := fun high x => if high then 5 * x else x }

/-- A request envelope from actor 3 with request id 1. -/
def sample_request : mailbox_element := ⟨some 3, ⟨1⟩, message.user 10⟩

/-- A high-priority request envelope from actor 4 with request id 2. -/
def sample_urgent_request : mailbox_element :=
  ⟨some 4, message_id.with_high_priority sample_layout ⟨2⟩, message.user 11⟩

/-- An asynchronous envelope from actor 5; it expects no reply. -/
def sample_async : mailbox_element := ⟨some 5, make_message_id, message.user 12⟩

/-- A live target actor with address 9, monitored by actor 7 and actor 8 and
linked to actor 7. -/
def sample_target : monitorable_actor :=
  { address_ := 9,
    attachables_ := [⟨9, 8, observe_type.monitor⟩, ⟨9, 7, observe_type.link⟩,
      ⟨9, 7, observe_type.monitor⟩],
    fail_state_ := none, is_cleaned_up_flag := false, is_registered_flag := true }

/-- A second request envelope from actor 6 with request id 5. -/
def sample_request_two : mailbox_element := ⟨some 6, ⟨5⟩, message.user 13⟩

/-- An actor with address 7 that is monitored by actors 8 and 2 and has three
request envelopes and one asynchronous envelope queued, the urgent request in
the high-priority queue; one more request sits in the default cache. -/
def busy_actor : local_actor :=
  { address_ := 7,
    attachables_ := [⟨7, 8, observe_type.monitor⟩, ⟨7, 2, observe_type.monitor⟩],
    fail_state_ := none,
    is_cleaned_up_flag := false, is_registered_flag := true,
    last_request_id_ := ⟨0⟩,
    mailbox_ :=
      ⟨false, ⟨[sample_request, sample_async, sample_request_two], [sample_request], 0, 4⟩,
        ⟨[sample_urgent_request], [], 0, 1⟩⟩ }

/-- A fresh actor after one request envelope was put into the cache. -/
def cached_actor : local_actor :=
  fresh_actor.push_to_cache sample_policy sample_request

/-! ## Bit-level facts about ids -/

theorem or_two_pow_of_lt {c k : Nat} (h : c < 2 ^ k) : c ||| 2 ^ k = 2 ^ k + c := by
  apply Nat.eq_of_testBit_eq
  intro i
  rw [Nat.testBit_or, Nat.testBit_two_pow]
  rcases Nat.lt_trichotomy i k with hlt | heq | hgt
  · rw [Nat.testBit_two_pow_add_gt hlt]
    have : ¬ k = i := by omega
    simp [this]
  · subst heq
    rw [Nat.testBit_two_pow_add_eq, Nat.testBit_lt_two_pow h]
    simp
  · have hki : 2 ^ (k + 1) ≤ 2 ^ i := Nat.pow_le_pow_right (by decide) hgt
    have h1 : c < 2 ^ i := by
      have : 2 ^ k < 2 ^ (k + 1) := Nat.pow_lt_pow_right (by decide) (by omega)
      omega
    have h2 : 2 ^ k + c < 2 ^ i := by
      have : 2 ^ (k + 1) = 2 * 2 ^ k := by rw [Nat.pow_succ]; omega
      omega
    rw [Nat.testBit_lt_two_pow h1, Nat.testBit_lt_two_pow h2]
    have : ¬ k = i := by omega
    simp [this]

theorem testBit_two_pow_add_of_lt {c k j : Nat} (h : c < 2 ^ k) (hj : c < 2 ^ j)
    (hne : k ≠ j) : (2 ^ k + c).testBit j = false := by
  rw [← or_two_pow_of_lt h, Nat.testBit_or, Nat.testBit_two_pow,
    Nat.testBit_lt_two_pow hj]
  simp [hne]

theorem request_id_plain (L : id_layout) {c : Nat}
    (h1 : c < 2 ^ L.high_priority_bit) (h2 : c < 2 ^ L.response_bit) :
    message_id.request_id L ⟨c⟩ = c := by
  simp [message_id.request_id, Nat.and_two_pow, Nat.testBit_lt_two_pow h1,
    Nat.testBit_lt_two_pow h2]

theorem request_id_high (L : id_layout) (hL : L.wf) {c : Nat}
    (h1 : c < 2 ^ L.high_priority_bit) (h2 : c < 2 ^ L.response_bit) :
    message_id.request_id L (message_id.with_high_priority L ⟨c⟩) = c := by
  have hne : L.high_priority_bit ≠ L.response_bit := hL.2.2
  simp only [message_id.request_id, message_id.with_high_priority, Nat.and_two_pow]
  rw [or_two_pow_of_lt h1, Nat.testBit_two_pow_add_eq, Nat.testBit_lt_two_pow h1,
    testBit_two_pow_add_of_lt h1 h2 hne]
  simp

theorem incr_value {c k : Nat} (hk : k < 64) (h : c + 1 < 2 ^ k) :
    (message_id.incr ⟨c⟩).value_ = c + 1 := by
  have : 2 ^ k < 2 ^ 64 := Nat.pow_lt_pow_right (by decide) hk
  simp only [message_id.incr]
  exact Nat.mod_eq_of_lt (by omega)

/-! ## Request ids -/

theorem new_request_id_value (L : id_layout) (hL : L.wf) (self : local_actor)
    (mp : message_priority)
    (h1 : self.last_request_id_.value_ + 1 < 2 ^ L.high_priority_bit) :
    (self.new_request_id L mp).2.last_request_id_.value_
      = self.last_request_id_.value_ + 1 := by
  simp only [local_actor.new_request_id]
  exact incr_value hL.1 h1

theorem new_request_id_counter (L : id_layout) (hL : L.wf) (self : local_actor)
    (mp : message_priority)
    (h1 : self.last_request_id_.value_ + 1 < 2 ^ L.high_priority_bit)
    (h2 : self.last_request_id_.value_ + 1 < 2 ^ L.response_bit) :
    (self.new_request_id L mp).1.request_id L = self.last_request_id_.value_ + 1 := by
  have hv : (message_id.incr self.last_request_id_)
      = ⟨self.last_request_id_.value_ + 1⟩ := by
    have := incr_value (c := self.last_request_id_.value_) hL.1 h1
    cases hm : message_id.incr self.last_request_id_ with
    | mk v =>
      have hv : (message_id.incr ⟨self.last_request_id_.value_⟩).value_ = v := by
        rw [show (⟨self.last_request_id_.value_⟩ : message_id) = self.last_request_id_
          from rfl, hm]
      rw [this] at hv
      rw [hv]
  simp only [local_actor.new_request_id, hv]
  cases mp with
  | normal => simpa using request_id_plain L h1 h2
  | high => simpa using request_id_high L hL h1 h2

theorem request_ids_counter_gt (L : id_layout) (hL : L.wf) (mps : List message_priority) :
    ∀ (self : local_actor),
      self.last_request_id_.value_ + mps.length < 2 ^ L.high_priority_bit →
      self.last_request_id_.value_ + mps.length < 2 ^ L.response_bit →
      ∀ x ∈ self.request_ids L mps,
        self.last_request_id_.value_ < x.request_id L := by
  induction mps with
  | nil => intro self _ _ x hx; simp [local_actor.request_ids] at hx
  | cons mp mps ih =>
    intro self h1 h2 x hx
    simp only [List.length_cons] at h1 h2
    simp only [local_actor.request_ids, List.mem_cons] at hx
    have hv := new_request_id_value L hL self mp (by omega)
    rcases hx with hx | hx
    · rw [hx, new_request_id_counter L hL self mp (by omega) (by omega)]
      omega
    · have := ih (self.new_request_id L mp).2 (by rw [hv]; omega) (by rw [hv]; omega) x hx
      rw [hv] at this
      omega

/-- C2 (as amended): when the counter plus one is still below both reserved
bits, the id returned by `new_request_id` has the high-priority bit set
exactly when the requested priority is high, never has the response bit set,
and has counter part equal to the previous counter plus one; the stored
counter advances by one, carries no priority bit, and nothing else in the
actor changes. -/
theorem new_request_id_bits (L : id_layout) (hL : L.wf) (self : local_actor)
    (mp : message_priority)
    (h1 : self.last_request_id_.value_ + 1 < 2 ^ L.high_priority_bit)
    (h2 : self.last_request_id_.value_ + 1 < 2 ^ L.response_bit) :
    ((self.new_request_id L mp).1.is_high_priority L = true
        ↔ mp = message_priority.high) ∧
    (self.new_request_id L mp).1.is_response L = false ∧
    (self.new_request_id L mp).1.request_id L = self.last_request_id_.value_ + 1 ∧
    (self.new_request_id L mp).2.last_request_id_.value_
      = self.last_request_id_.value_ + 1 ∧
    (self.new_request_id L mp).2.last_request_id_.is_high_priority L = false ∧
    (self.new_request_id L mp).2.tomonitorable_actor = self.tomonitorable_actor ∧
    (self.new_request_id L mp).2.mailbox_ = self.mailbox_ := by
  have hv := new_request_id_value L hL self mp h1
  have hc := new_request_id_counter L hL self mp h1 h2
  have hi : (message_id.incr self.last_request_id_).value_
      = self.last_request_id_.value_ + 1 := incr_value hL.1 h1
  have hne : L.high_priority_bit ≠ L.response_bit := hL.2.2
  refine ⟨?_, ?_, hc, hv, ?_, rfl, rfl⟩
  · cases mp with
    | normal =>
      simp [local_actor.new_request_id, message_id.is_high_priority, hi,
        Nat.testBit_lt_two_pow h1]
    | high =>
      simp [local_actor.new_request_id, message_id.is_high_priority,
        message_id.with_high_priority, hi, Nat.testBit_or]
  · cases mp with
    | normal =>
      simp [local_actor.new_request_id, message_id.is_response, hi,
        Nat.testBit_lt_two_pow h2]
    | high =>
      simp [local_actor.new_request_id, message_id.is_response,
        message_id.with_high_priority, hi, Nat.testBit_or,
        Nat.testBit_lt_two_pow h2, Nat.testBit_two_pow, hne]
  · simp [local_actor.new_request_id, message_id.is_high_priority, hi,
      Nat.testBit_lt_two_pow h1]

/-- Witness for C2: a fresh actor asked for a high-priority id. -/
theorem new_request_id_bits_witness :
    ((fresh_actor.new_request_id sample_layout message_priority.high).1.is_high_priority
        sample_layout = true ↔ message_priority.high = message_priority.high) ∧
    (fresh_actor.new_request_id sample_layout message_priority.high).1.is_response
        sample_layout = false ∧
    (fresh_actor.new_request_id sample_layout message_priority.high).1.request_id
        sample_layout = fresh_actor.last_request_id_.value_ + 1 ∧
    (fresh_actor.new_request_id sample_layout message_priority.high).2.last_request_id_.value_
      = fresh_actor.last_request_id_.value_ + 1 ∧
    (fresh_actor.new_request_id sample_layout
        message_priority.high).2.last_request_id_.is_high_priority sample_layout = false ∧
    (fresh_actor.new_request_id sample_layout message_priority.high).2.tomonitorable_actor
      = fresh_actor.tomonitorable_actor ∧
    (fresh_actor.new_request_id sample_layout message_priority.high).2.mailbox_
      = fresh_actor.mailbox_ :=
  new_request_id_bits sample_layout (by decide) fresh_actor message_priority.high
    (by decide) (by decide)

/-- Counterexample to C2 as stated: with the counter at the largest value
below the reserved bits, a normal-priority request returns an id whose
high-priority bit is set and whose counter part is zero, and the stored
counter carries the priority bit. -/
theorem new_request_id_bits_boundary :
    ({ fresh_actor with last_request_id_ := ⟨2 ^ 61 - 1⟩ } : local_actor).last_request_id_.value_
        < 2 ^ sample_layout.high_priority_bit ∧
    ({ fresh_actor with last_request_id_ := ⟨2 ^ 61 - 1⟩ } : local_actor).last_request_id_.value_
        < 2 ^ sample_layout.response_bit ∧
    (({ fresh_actor with last_request_id_ := ⟨2 ^ 61 - 1⟩ } : local_actor).new_request_id
        sample_layout message_priority.normal).1 = ⟨2 ^ 61⟩ ∧
    (({ fresh_actor with last_request_id_ := ⟨2 ^ 61 - 1⟩ } : local_actor).new_request_id
        sample_layout message_priority.normal).1.is_high_priority sample_layout = true ∧
    (({ fresh_actor with last_request_id_ := ⟨2 ^ 61 - 1⟩ } : local_actor).new_request_id
        sample_layout message_priority.normal).1.request_id sample_layout = 0 ∧
    (({ fresh_actor with last_request_id_ := ⟨2 ^ 61 - 1⟩ } : local_actor).new_request_id
        sample_layout message_priority.normal).2.last_request_id_.is_high_priority
          sample_layout = true := by
  decide

theorem new_request_id_word (L : id_layout) (hL : L.wf) (self : local_actor)
    (mp : message_priority)
    (h1 : self.last_request_id_.value_ + 1 < 2 ^ L.high_priority_bit) :
    (self.new_request_id L mp).1 = ⟨self.last_request_id_.value_ + 1⟩ ∨
    (self.new_request_id L mp).1
      = ⟨2 ^ L.high_priority_bit + (self.last_request_id_.value_ + 1)⟩ := by
  have hi : message_id.incr self.last_request_id_
      = ⟨self.last_request_id_.value_ + 1⟩ := by
    have := incr_value (c := self.last_request_id_.value_) hL.1 h1
    cases hm : message_id.incr self.last_request_id_ with
    | mk v =>
      have hv : (message_id.incr ⟨self.last_request_id_.value_⟩).value_ = v := by
        rw [show (⟨self.last_request_id_.value_⟩ : message_id) = self.last_request_id_
          from rfl, hm]
      rw [this] at hv
      rw [hv]
  cases mp with
  | normal => left; simp [local_actor.new_request_id, hi]
  | high =>
    right
    simp only [local_actor.new_request_id, hi, message_id.with_high_priority]
    rw [or_two_pow_of_lt h1]
    simp

theorem request_ids_word (L : id_layout) (hL : L.wf) (mps : List message_priority) :
    ∀ (self : local_actor),
      self.last_request_id_.value_ + mps.length < 2 ^ L.high_priority_bit →
      self.last_request_id_.value_ + mps.length < 2 ^ L.response_bit →
      ∀ x ∈ self.request_ids L mps,
        ∃ k, k < 2 ^ L.high_priority_bit ∧ k < 2 ^ L.response_bit ∧
          (x = ⟨k⟩ ∨ x = ⟨2 ^ L.high_priority_bit + k⟩) := by
  induction mps with
  | nil => intro self _ _ x hx; simp [local_actor.request_ids] at hx
  | cons mp mps ih =>
    intro self h1 h2 x hx
    simp only [List.length_cons] at h1 h2
    simp only [local_actor.request_ids, List.mem_cons] at hx
    have hv := new_request_id_value L hL self mp (by omega)
    rcases hx with hx | hx
    · exact ⟨self.last_request_id_.value_ + 1, by omega, by omega,
        by rw [hx]; exact new_request_id_word L hL self mp (by omega)⟩
    · exact ih (self.new_request_id L mp).2 (by rw [hv]; omega) (by rw [hv]; omega) x hx

theorem word_lt_of_counter_lt (L : id_layout) (hL : L.wf) (a b : message_id)
    (ha : ∃ k, k < 2 ^ L.high_priority_bit ∧ k < 2 ^ L.response_bit ∧
      (a = ⟨k⟩ ∨ a = ⟨2 ^ L.high_priority_bit + k⟩))
    (hb : ∃ k, k < 2 ^ L.high_priority_bit ∧ k < 2 ^ L.response_bit ∧
      (b = ⟨k⟩ ∨ b = ⟨2 ^ L.high_priority_bit + k⟩))
    (hc : a.request_id L < b.request_id L)
    (hp : a.is_high_priority L = b.is_high_priority L) : a < b := by
  obtain ⟨ka, ha1, ha2, ha⟩ := ha
  obtain ⟨kb, hb1, hb2, hb⟩ := hb
  have hplain : ∀ k, k < 2 ^ L.high_priority_bit →
      message_id.is_high_priority L ⟨k⟩ = false := by
    intro k hk
    simp [message_id.is_high_priority, Nat.testBit_lt_two_pow hk]
  have hhigh : ∀ k, k < 2 ^ L.high_priority_bit →
      message_id.is_high_priority L ⟨2 ^ L.high_priority_bit + k⟩ = true := by
    intro k hk
    simp [message_id.is_high_priority, Nat.testBit_two_pow_add_eq,
      Nat.testBit_lt_two_pow hk]
  have hrh : ∀ k, k < 2 ^ L.high_priority_bit → k < 2 ^ L.response_bit →
      message_id.request_id L ⟨2 ^ L.high_priority_bit + k⟩ = k := by
    intro k hk1 hk2
    have := request_id_high L hL hk1 hk2
    simp only [message_id.with_high_priority] at this
    rw [or_two_pow_of_lt hk1] at this
    exact this
  show a.value_ < b.value_
  rcases ha with rfl | rfl <;> rcases hb with rfl | rfl
  · rw [request_id_plain L ha1 ha2, request_id_plain L hb1 hb2] at hc
    exact hc
  · rw [hplain ka ha1, hhigh kb hb1] at hp
    cases hp
  · rw [hhigh ka ha1, hplain kb hb1] at hp
    cases hp
  · rw [hrh ka ha1 ha2, hrh kb hb1 hb2] at hc
    show 2 ^ L.high_priority_bit + ka < 2 ^ L.high_priority_bit + kb
    omega

/-- C1 (as amended): over any sequence of `new_request_id` calls on one
actor, with any mix of priorities and the counter staying below the reserved
bits, the counter part of each returned id is strictly greater than the
counter part of every id returned before, each returned id is strictly
greater than every id of the same priority returned before, and no id is
issued twice. -/
theorem request_ids_counter_increasing (L : id_layout) (hL : L.wf)
    (mps : List message_priority) (self : local_actor)
    (h1 : self.last_request_id_.value_ + mps.length < 2 ^ L.high_priority_bit)
    (h2 : self.last_request_id_.value_ + mps.length < 2 ^ L.response_bit) :
    (self.request_ids L mps).Pairwise
        (fun a b => a.request_id L < b.request_id L) ∧
    (self.request_ids L mps).Pairwise
        (fun a b => a.is_high_priority L = b.is_high_priority L → a < b) ∧
    (self.request_ids L mps).Nodup := by
  have hw := request_ids_word L hL mps self h1 h2
  have key : (self.request_ids L mps).Pairwise
      (fun a b => a.request_id L < b.request_id L) := by
    clear hw
    induction mps generalizing self with
    | nil => simp [local_actor.request_ids]
    | cons mp mps ih =>
      simp only [List.length_cons] at h1 h2
      have hv := new_request_id_value L hL self mp (by omega)
      simp only [local_actor.request_ids, List.pairwise_cons]
      refine ⟨?_, ih _ (by rw [hv]; omega) (by rw [hv]; omega)⟩
      intro x hx
      have := request_ids_counter_gt L hL mps (self.new_request_id L mp).2
        (by rw [hv]; omega) (by rw [hv]; omega) x hx
      rw [hv] at this
      rw [new_request_id_counter L hL self mp (by omega) (by omega)]
      exact this
  refine ⟨key, ?_, ?_⟩
  · refine List.Pairwise.imp_of_mem ?_ key
    intro a b ha hb hab hp
    exact word_lt_of_counter_lt L hL a b (hw a ha) (hw b hb) hab hp
  · refine List.Pairwise.imp ?_ key
    intro a b hab heq
    rw [heq] at hab
    exact Nat.lt_irrefl _ hab

/-- Witness for C1: a high-priority request followed by two normal ones. -/
theorem request_ids_counter_increasing_witness :
    (fresh_actor.request_ids sample_layout
        [message_priority.high, message_priority.normal, message_priority.normal]).Pairwise
        (fun a b => a.request_id sample_layout < b.request_id sample_layout) ∧
    (fresh_actor.request_ids sample_layout
        [message_priority.high, message_priority.normal, message_priority.normal]).Pairwise
        (fun a b => a.is_high_priority sample_layout = b.is_high_priority sample_layout
          → a < b) ∧
    (fresh_actor.request_ids sample_layout
        [message_priority.high, message_priority.normal, message_priority.normal]).Nodup :=
  request_ids_counter_increasing sample_layout (by decide)
    [message_priority.high, message_priority.normal, message_priority.normal]
    fresh_actor (by decide) (by decide)

/-- Counterexample to C1 as stated: a high-priority request followed by a
normal-priority one, far from overflow, returns first the word `2^61 + 1`
and then the word `2`, which is not greater than the id returned before. -/
theorem request_ids_not_increasing :
    fresh_actor.request_ids sample_layout
        [message_priority.high, message_priority.normal] = [⟨2 ^ 61 + 1⟩, ⟨2⟩] ∧
    ¬ ((⟨2 ^ 61 + 1⟩ : message_id) < ⟨2⟩) ∧
    ¬ (fresh_actor.request_ids sample_layout
        [message_priority.high, message_priority.normal]).Pairwise (fun a b => a < b) := by
  decide

/-! ## Request timeouts and exit signals -/

/-- C7: `request_response_timeout(d, mid)` schedules exactly one delayed send
when `d` is valid and none otherwise; the scheduled envelope has the actor as
sender and receiver, delay `d`, the response form of `mid` as id and the
`request_timeout` error as payload; the actor state is unchanged. -/
theorem request_response_timeout_schedules (L : id_layout) (self : local_actor)
    (d : duration) (mid : message_id) :
    self.request_response_timeout L d mid
      = (self,
          if d.valid then
            [effect.delayed_send d self.address_ self.address_ (mid.response_id L)
              (message.of_sec sec.request_timeout)]
          else []) ∧
    (self.request_response_timeout L d mid).2.length = (if d.valid then 1 else 0) ∧
    (mid.response_id L).is_response L = true := by
  refine ⟨?_, ?_, ?_⟩
  · cases h : d.valid <;> simp [local_actor.request_response_timeout, h]
  · cases h : d.valid <;> simp [local_actor.request_response_timeout, h]
  · simp [message_id.response_id, message_id.is_response, Nat.testBit_or]

/-- C8: `send_exit` does nothing on a null handle and otherwise performs
exactly one enqueue on the target; the envelope has the default id (no
request, normal priority, no response) and an exit payload carrying the
caller's address and the given reason; the caller's state is the same
whatever the target's state, and the address overload behaves like the
handle overload on the handle the address resolves to. -/
theorem send_exit_enqueues_once (L : id_layout)
    (actor_cast : actor_addr → strong_actor_ptr) (self : local_actor)
    (dest : strong_actor_ptr) (whom : actor_addr) (reason : error) :
    self.send_exit dest reason
      = (self,
          match dest with
          | none => []
          | some t =>
            [effect.enqueued t.address_
              ⟨none, make_message_id, message.of_exit_msg ⟨self.address_, reason⟩⟩]) ∧
    self.send_exit_addr actor_cast whom reason = self.send_exit (actor_cast whom) reason ∧
    make_message_id.is_request L = false ∧
    make_message_id.is_high_priority L = false ∧
    make_message_id.is_response L = false := by
  refine ⟨?_, rfl, ?_, ?_, ?_⟩
  · cases dest <;> rfl
  · simp [make_message_id, message_id.is_request, message_id.request_id]
  · simp [make_message_id, message_id.is_high_priority]
  · simp [make_message_id, message_id.is_response]

/-! ## Monitoring -/

theorem eraseP_filter_not {α : Type} (q : α → Bool) (l : List α) :
    (l.eraseP q).filter (fun a => !q a) = l.filter (fun a => !q a) := by
  induction l with
  | nil => rfl
  | cons a l ih =>
    rw [List.eraseP_cons]
    cases h : q a
    · simp [List.filter_cons, h, ih]
    · simp [List.filter_cons, h]

/-- C9: `demonitor(whom)` fires nothing; when the address does not resolve it
changes nothing; otherwise it removes from the target's list one registration
matching the observer's address and kind monitor if there is one and none if
there is none, leaves the registrations of other observers and other kinds
unchanged and in order, touches no other field of the target, and undoes the
registration that `monitor` attaches to a live target. -/
theorem demonitor_removes_registration (actor_cast : actor_addr → strong_actor_ptr)
    (self : local_actor) (whom : actor_addr) (t : monitorable_actor) :
    self.demonitor actor_cast whom
      = ((actor_cast whom).map
          (fun x => x.detach ⟨self.address_, observe_type.monitor⟩), []) ∧
    ((t.detach ⟨self.address_, observe_type.monitor⟩).attachables_.filter
        (fun a => !attachable.is_match ⟨self.address_, observe_type.monitor⟩ a)
      = t.attachables_.filter
        (fun a => !attachable.is_match ⟨self.address_, observe_type.monitor⟩ a)) ∧
    ((t.detach ⟨self.address_, observe_type.monitor⟩).attachables_.length
      = t.attachables_.length
        - (if t.attachables_.any
              (attachable.is_match ⟨self.address_, observe_type.monitor⟩)
            then 1 else 0)) ∧
    (t.detach ⟨self.address_, observe_type.monitor⟩).attachables_.Sublist
        t.attachables_ ∧
    ((if t.attachables_.any (attachable.is_match ⟨self.address_, observe_type.monitor⟩)
        then t else t.detach ⟨self.address_, observe_type.monitor⟩) = t) ∧
    { t.detach ⟨self.address_, observe_type.monitor⟩ with
        attachables_ := t.attachables_ } = t ∧
    ((self.monitor (some t)).1.map
        (fun x => x.detach ⟨self.address_, observe_type.monitor⟩)
      = some (if t.is_cleaned_up_flag
          then t.detach ⟨self.address_, observe_type.monitor⟩ else t)) := by
  refine ⟨?_, ?_, ?_, ?_, ?_, ?_, ?_⟩
  · simp only [local_actor.demonitor]
    cases actor_cast whom <;> rfl
  · exact eraseP_filter_not _ _
  · simp only [monitorable_actor.detach, List.length_eraseP]
    split <;> simp
  · exact List.eraseP_sublist _
  · split
    · rfl
    · rename_i h
      simp only [monitorable_actor.detach]
      rw [List.eraseP_of_forall_not]
      intro a ha hm
      exact h (List.any_eq_true.mpr ⟨a, ha, hm⟩)
  · rfl
  · obtain ⟨ad, at_, fs, cu, rg⟩ := t
    simp only [local_actor.monitor, monitorable_actor.attach]
    cases cu
    · simp [monitorable_actor.detach, List.eraseP_cons, attachable.is_match,
        default_attachable.make_monitor]
    · simp

/-! ## The pre-start cache -/

theorem push_all_to_cache_fields (p : mailbox_policy) (es : List mailbox_element) :
    ∀ self : local_actor,
      (self.push_all_to_cache p es).mailbox_.default_queue.cache_
        = self.mailbox_.default_queue.cache_
          ++ es.filter (fun e => decide (p.id_of e = p.default_queue_index)) ∧
      (self.push_all_to_cache p es).mailbox_.high_priority_queue.cache_
        = self.mailbox_.high_priority_queue.cache_
          ++ es.filter (fun e => !decide (p.id_of e = p.default_queue_index)) ∧
      (self.push_all_to_cache p es).mailbox_.default_queue.total_task_size_
        = self.mailbox_.default_queue.total_task_size_
          + ((es.filter (fun e => decide (p.id_of e = p.default_queue_index))).map
              p.task_size).sum ∧
      (self.push_all_to_cache p es).mailbox_.high_priority_queue.total_task_size_
        = self.mailbox_.high_priority_queue.total_task_size_
          + ((es.filter (fun e => !decide (p.id_of e = p.default_queue_index))).map
              p.task_size).sum ∧
      (self.push_all_to_cache p es).mailbox_.default_queue.list_
        = self.mailbox_.default_queue.list_ ∧
      (self.push_all_to_cache p es).mailbox_.high_priority_queue.list_
        = self.mailbox_.high_priority_queue.list_ := by
  induction es with
  | nil => intro self; simp [local_actor.push_all_to_cache]
  | cons e es ih =>
    intro self
    have h := ih (self.push_to_cache p e)
    simp only [local_actor.push_all_to_cache, List.foldl_cons] at h ⊢
    obtain ⟨h1, h2, h3, h4, h5, h6⟩ := h
    rw [h1, h2, h3, h4, h5, h6]
    by_cases hq : p.id_of e = p.default_queue_index
    · simp [local_actor.push_to_cache, hq, List.filter_cons,
        drr_cached_queue.inc_total_task_size, drr_cached_queue.cache_push_back]
      omega
    · simp [local_actor.push_to_cache, hq, List.filter_cons,
        drr_cached_queue.inc_total_task_size, drr_cached_queue.cache_push_back]
      omega

/-- C10: `push_to_cache(e)` appends `e` at the back of the cache of exactly
one queue, the default queue when `id_of(e)` is the default queue index and
the high-priority queue otherwise, adds `task_size(e)` to that queue's total
task size, and leaves the other queue, both active lists, both deficits, the
closed flag and the rest of the actor unchanged.  Over successive calls each
cache grows by the envelopes of its class in arrival order and each total
grows by the sizes of exactly those envelopes. -/
theorem push_to_cache_effect (p : mailbox_policy) (self : local_actor)
    (e : mailbox_element) (es : List mailbox_element) :
    (self.push_to_cache p e).mailbox_.default_queue
      = (if p.id_of e = p.default_queue_index then
          { self.mailbox_.default_queue with
            cache_ := self.mailbox_.default_queue.cache_ ++ [e],
            total_task_size_ :=
              self.mailbox_.default_queue.total_task_size_ + p.task_size e }
        else self.mailbox_.default_queue) ∧
    (self.push_to_cache p e).mailbox_.high_priority_queue
      = (if p.id_of e = p.default_queue_index then self.mailbox_.high_priority_queue
        else
          { self.mailbox_.high_priority_queue with
            cache_ := self.mailbox_.high_priority_queue.cache_ ++ [e],
            total_task_size_ :=
              self.mailbox_.high_priority_queue.total_task_size_ + p.task_size e }) ∧
    (self.push_to_cache p e).mailbox_.closed_ = self.mailbox_.closed_ ∧
    (self.push_to_cache p e).tomonitorable_actor = self.tomonitorable_actor ∧
    (self.push_to_cache p e).last_request_id_ = self.last_request_id_ ∧
    (self.push_all_to_cache p es).mailbox_.default_queue.cache_
      = self.mailbox_.default_queue.cache_
        ++ es.filter (fun x => decide (p.id_of x = p.default_queue_index)) ∧
    (self.push_all_to_cache p es).mailbox_.high_priority_queue.cache_
      = self.mailbox_.high_priority_queue.cache_
        ++ es.filter (fun x => !decide (p.id_of x = p.default_queue_index)) ∧
    (self.push_all_to_cache p es).mailbox_.default_queue.total_task_size_
      = self.mailbox_.default_queue.total_task_size_
        + ((es.filter (fun x => decide (p.id_of x = p.default_queue_index))).map
            p.task_size).sum ∧
    (self.push_all_to_cache p es).mailbox_.high_priority_queue.total_task_size_
      = self.mailbox_.high_priority_queue.total_task_size_
        + ((es.filter (fun x => !decide (p.id_of x = p.default_queue_index))).map
            p.task_size).sum ∧
    (self.push_all_to_cache p es).mailbox_.default_queue.list_
      = self.mailbox_.default_queue.list_ ∧
    (self.push_all_to_cache p es).mailbox_.high_priority_queue.list_
      = self.mailbox_.high_priority_queue.list_ := by
  obtain ⟨h1, h2, h3, h4, h5, h6⟩ := push_all_to_cache_fields p es self
  refine ⟨?_, ?_, ?_, ?_, ?_, h1, h2, h3, h4, h5, h6⟩
  all_goals
    by_cases hq : p.id_of e = p.default_queue_index <;>
      simp [local_actor.push_to_cache, hq, drr_cached_queue.inc_total_task_size,
        drr_cached_queue.cache_push_back]

/-! ## Draining the mailbox -/

theorem drr_take_append (ts : mailbox_element → Nat) (l : List mailbox_element) :
    ∀ d, (drr_take ts d l).1 ++ (drr_take ts d l).2.1 = l := by
  induction l with
  | nil => intro d; rfl
  | cons e es ih =>
    intro d
    by_cases h : ts e ≤ d
    · simp [drr_take, h, ih]
    · simp [drr_take, h]

theorem drr_take_nil_of_covered (ts : mailbox_element → Nat) (l : List mailbox_element)
    (d q : Nat) (hc : ∀ e ∈ l, ts e ≤ q) (hd : q ≤ d) (h : (drr_take ts d l).1 = []) :
    l = [] := by
  cases l with
  | nil => rfl
  | cons e es =>
    have : ts e ≤ d := Nat.le_trans (hc e (List.mem_cons_self _ _)) hd
    simp [drr_take, this] at h

theorem round_flag {α : Type} (p : mailbox_policy) (m : mailbox)
    (c : mailbox_element → List α) :
    (m.new_round p 1000 c).1 = !(m.round_taken p).isEmpty := by
  simp only [mailbox.new_round, drr_cached_queue.new_round, mailbox.round_taken]
  cases (drr_take p.task_size (m.default_queue.deficit_ + p.quantum false 1000)
      m.default_queue.list_).1 <;>
    cases (drr_take p.task_size (m.high_priority_queue.deficit_ + p.quantum true 1000)
      m.high_priority_queue.list_).1 <;> rfl

theorem round_outputs {α : Type} (p : mailbox_policy) (m : mailbox)
    (c : mailbox_element → List α) :
    (m.new_round p 1000 c).2.1 = (m.round_taken p).flatMap c := by
  simp [mailbox.new_round, drr_cached_queue.new_round, mailbox.round_taken,
    List.flatMap_append]

theorem round_state {α : Type} (p : mailbox_policy) (m : mailbox)
    (c : mailbox_element → List α) :
    (m.new_round p 1000 c).2.2 = m.round_next p := by
  simp [mailbox.new_round, drr_cached_queue.new_round, mailbox.round_next]

theorem round_perm (p : mailbox_policy) (m : mailbox) :
    (m.round_taken p ++ (m.round_next p).active).Perm m.active := by
  have hd := drr_take_append p.task_size m.default_queue.list_
    (m.default_queue.deficit_ + p.quantum false 1000)
  have hh := drr_take_append p.task_size m.high_priority_queue.list_
    (m.high_priority_queue.deficit_ + p.quantum true 1000)
  simp only [mailbox.round_taken, mailbox.round_next, mailbox.active, mailbox.new_round,
    drr_cached_queue.new_round]
  generalize (drr_take p.task_size (m.default_queue.deficit_ + p.quantum false 1000)
      m.default_queue.list_) = a at hd ⊢
  generalize (drr_take p.task_size (m.high_priority_queue.deficit_ + p.quantum true 1000)
      m.high_priority_queue.list_) = b at hh ⊢
  rw [← hd, ← hh]
  simp only [List.append_assoc]
  refine List.Perm.append_left _ ?_
  rw [← List.append_assoc, ← List.append_assoc]
  exact List.Perm.append_right _ List.perm_append_comm

theorem round_frame (p : mailbox_policy) (m : mailbox) :
    (m.round_next p).closed_ = m.closed_ ∧
    (m.round_next p).default_queue.cache_ = m.default_queue.cache_ ∧
    (m.round_next p).high_priority_queue.cache_ = m.high_priority_queue.cache_ :=
  ⟨rfl, rfl, rfl⟩

theorem round_covers (p : mailbox_policy) (m : mailbox) (h : p.covers m) :
    p.covers (m.round_next p) := by
  have hd := drr_take_append p.task_size m.default_queue.list_
    (m.default_queue.deficit_ + p.quantum false 1000)
  have hh := drr_take_append p.task_size m.high_priority_queue.list_
    (m.high_priority_queue.deficit_ + p.quantum true 1000)
  constructor
  · intro e he
    apply h.1
    rw [← hd]
    exact List.mem_append_right _ he
  · intro e he
    apply h.2
    rw [← hh]
    exact List.mem_append_right _ he

theorem round_stuck_empty (p : mailbox_policy) (m : mailbox) (h : p.covers m)
    (ht : m.round_taken p = []) : m.active = [] := by
  simp only [mailbox.round_taken, List.append_eq_nil] at ht
  have h1 := drr_take_nil_of_covered p.task_size _ _ _ h.1 (Nat.le_add_left _ _) ht.1
  have h2 := drr_take_nil_of_covered p.task_size _ _ _ h.2 (Nat.le_add_left _ _) ht.2
  simp [mailbox.active, h1, h2]

theorem drain_succ {α : Type} (p : mailbox_policy) (c : mailbox_element → List α)
    (fuel : Nat) (m : mailbox) :
    mailbox.drain p c (fuel + 1) m
      = if (m.round_taken p).isEmpty then
          some ((m.round_taken p).flatMap c, m.round_next p)
        else
          (mailbox.drain p c fuel (m.round_next p)).map
            (fun t => ((m.round_taken p).flatMap c ++ t.1, t.2)) := by
  simp only [mailbox.drain, round_flag, round_outputs, round_state]
  cases (m.round_taken p).isEmpty <;> simp

theorem round_shrinks (p : mailbox_policy) (m : mailbox)
    (h : (m.round_taken p).isEmpty = false) :
    (m.round_next p).active.length < m.active.length := by
  have hp := (round_perm p m).length_eq
  rw [List.length_append] at hp
  have : 0 < (m.round_taken p).length := by
    cases ht : m.round_taken p with
    | nil => rw [ht] at h; simp at h
    | cons a l => simp
  omega

/-- With fuel above the number of queued envelopes the drain loop ends
because a round consumed nothing: every consumed envelope went through the
consumer once, in the order recorded by `hs`, and what was consumed plus what
remains is what was queued. -/
theorem drain_result (p : mailbox_policy) :
    ∀ (fuel : Nat) (m : mailbox), m.active.length < fuel →
      ∃ (hs : List mailbox_element) (m1 : mailbox),
        (∀ (α : Type) (c : mailbox_element → List α),
          mailbox.drain p c fuel m = some (hs.flatMap c, m1)) ∧
        (hs ++ m1.active).Perm m.active ∧
        m1.closed_ = m.closed_ ∧
        m1.default_queue.cache_ = m.default_queue.cache_ ∧
        m1.high_priority_queue.cache_ = m.high_priority_queue.cache_ ∧
        (p.covers m → m1.active = []) := by
  intro fuel
  induction fuel with
  | zero => intro m h; omega
  | succ fuel ih =>
    intro m hlen
    cases ht : (m.round_taken p).isEmpty with
    | true =>
      have hnil : m.round_taken p = [] := List.isEmpty_iff.mp ht
      refine ⟨[], m.round_next p, ?_, ?_, (round_frame p m).1, (round_frame p m).2.1,
        (round_frame p m).2.2, ?_⟩
      · intro α c
        rw [drain_succ, ht, hnil]
        rfl
      · have := round_perm p m
        rw [hnil] at this
        simpa using this
      · intro hc
        have h1 := round_stuck_empty p m hc hnil
        have h2 := (round_perm p m).length_eq
        rw [hnil, h1] at h2
        exact List.length_eq_zero.mp (by simpa using h2)
    | false =>
      have hs := round_shrinks p m ht
      obtain ⟨hs1, m1, hd, hp, hcl, hc1, hc2, hcov⟩ := ih (m.round_next p) (by omega)
      refine ⟨m.round_taken p ++ hs1, m1, ?_, ?_, ?_, ?_, ?_, ?_⟩
      · intro α c
        rw [drain_succ, ht, hd α c]
        simp [List.flatMap_append]
      · rw [List.append_assoc]
        exact (List.Perm.append_left _ hp).trans (round_perm p m)
      · rw [hcl]; exact (round_frame p m).1
      · rw [hc1]; exact (round_frame p m).2.1
      · rw [hc2]; exact (round_frame p m).2.2
      · intro hc
        exact hcov (round_covers p m hc)

theorem drain_fuel_irrelevant {α : Type} (p : mailbox_policy)
    (c : mailbox_element → List α) :
    ∀ (f1 f2 : Nat) (m : mailbox), m.active.length < f1 → m.active.length < f2 →
      mailbox.drain p c f1 m = mailbox.drain p c f2 m := by
  intro f1
  induction f1 with
  | zero => intro f2 m h; omega
  | succ f1 ih =>
    intro f2 m h1 h2
    cases f2 with
    | zero => omega
    | succ f2 =>
      rw [drain_succ, drain_succ]
      cases ht : (m.round_taken p).isEmpty with
      | true => rfl
      | false =>
        have hs := round_shrinks p m ht
        simp only [Bool.false_eq_true, if_false]
        rw [ih f2 (m.round_next p) (by omega) (by omega)]

/-! ## Cleanup -/

theorem bouncer_outputs (L : id_layout) (r : error) (hs : List mailbox_element) :
    hs.flatMap (sync_request_bouncer L r)
      = (hs.filter (fun e => e.mid.is_request L)).map (bounce_of L r) := by
  induction hs with
  | nil => rfl
  | cons e es ih =>
    rw [List.flatMap_cons, ih]
    cases h : e.mid.is_request L <;>
      simp [sync_request_bouncer, List.filter_cons, h, bounce_of]

theorem bouncer_phase (L : id_layout) (r : error) (hs : List mailbox_element) :
    ∀ x ∈ hs.flatMap (sync_request_bouncer L r), x.phase = 1 ∧ x.is_bounce = true := by
  intro x hx
  rw [bouncer_outputs, List.mem_map] at hx
  obtain ⟨e, _, rfl⟩ := hx
  exact ⟨rfl, rfl⟩

theorem unregister_phase (t : monitorable_actor) :
    ∀ x ∈ t.unregister_from_system.2, x.phase = 2 := by
  intro x hx
  simp only [monitorable_actor.unregister_from_system] at hx
  split at hx
  · simp only [List.mem_singleton] at hx; rw [hx]; rfl
  · simp at hx

theorem base_cleanup_phase (t : monitorable_actor) (r : error) :
    ∀ x ∈ (t.cleanup r).2.2, x.phase = 3 := by
  intro x hx
  simp only [monitorable_actor.cleanup] at hx
  split at hx
  · simp at hx
  · simp only [List.mem_append, List.mem_map, List.mem_singleton] at hx
    rcases hx with ⟨a, _, rfl⟩ | rfl <;> rfl

theorem unregister_and_cleanup_phase (t : monitorable_actor) (r : error) :
    (t.unregister_and_cleanup r).2.Pairwise (fun a b => a.phase ≤ b.phase) ∧
    ∀ x ∈ (t.unregister_and_cleanup r).2, 2 ≤ x.phase ∧ x.phase ≤ 3 := by
  have hu := unregister_phase t
  have hc := base_cleanup_phase t.unregister_from_system.1 r
  constructor
  · simp only [monitorable_actor.unregister_and_cleanup]
    rw [List.pairwise_append]
    refine ⟨?_, ?_, ?_⟩
    · apply List.pairwise_of_forall_mem_list
      intro a ha b hb
      rw [hu a ha, hu b hb]
    · apply List.pairwise_of_forall_mem_list
      intro a ha b hb
      rw [hc a ha, hc b hb]
    · intro a ha b hb
      rw [hu a ha, hc b hb]
      decide
  · intro x hx
    simp only [monitorable_actor.unregister_and_cleanup, List.mem_append] at hx
    rcases hx with hx | hx
    · rw [hu x hx]; decide
    · rw [hc x hx]; decide

theorem cleanup_closed (L : id_layout) (p : mailbox_policy) (fuel : Nat)
    (self : local_actor) (r : error) (h : self.mailbox_.closed_ = true) :
    self.cleanup L p fuel r
      = some (true,
          { self with
            tomonitorable_actor := (self.tomonitorable_actor.unregister_and_cleanup r).1 },
          (self.tomonitorable_actor.unregister_and_cleanup r).2) := by
  simp [local_actor.cleanup, h, monitorable_actor.unregister_and_cleanup]

theorem cleanup_open (L : id_layout) (p : mailbox_policy) (fuel : Nat)
    (self : local_actor) (r : error) (h : self.mailbox_.closed_ = false)
    (outs : List effect) (m1 : mailbox)
    (hd : mailbox.drain p (sync_request_bouncer L r) fuel self.mailbox_.close
      = some (outs, m1)) :
    self.cleanup L p fuel r
      = some (true,
          { self with
            tomonitorable_actor := (self.tomonitorable_actor.unregister_and_cleanup r).1,
            mailbox_ := m1 },
          effect.mailbox_closed :: outs
            ++ (self.tomonitorable_actor.unregister_and_cleanup r).2) := by
  simp [local_actor.cleanup, h, hd, monitorable_actor.unregister_and_cleanup]

/-- Closed form of `cleanup` on an actor whose mailbox is open: the drain
loop ends for every fuel above the number of queued envelopes, always with
the same consumed envelopes `hs` and the same final mailbox `m1`. -/
theorem cleanup_open_result (L : id_layout) (p : mailbox_policy)
    (self : local_actor) (r : error) (h : self.mailbox_.closed_ = false) :
    ∃ (hs : List mailbox_element) (m1 : mailbox),
      (hs ++ m1.active).Perm self.mailbox_.active ∧
      m1.closed_ = true ∧
      m1.default_queue.cache_ = self.mailbox_.default_queue.cache_ ∧
      m1.high_priority_queue.cache_ = self.mailbox_.high_priority_queue.cache_ ∧
      (p.covers self.mailbox_ → m1.active = []) ∧
      ∀ fuel, self.mailbox_.active.length < fuel →
        self.cleanup L p fuel r
          = some (true,
              { self with
                tomonitorable_actor :=
                  (self.tomonitorable_actor.unregister_and_cleanup r).1,
                mailbox_ := m1 },
              effect.mailbox_closed :: hs.flatMap (sync_request_bouncer L r)
                ++ (self.tomonitorable_actor.unregister_and_cleanup r).2) := by
  obtain ⟨hs, m1, hd, hp, hcl, hc1, hc2, hcov⟩ :=
    drain_result p (self.mailbox_.active.length + 1) self.mailbox_.close
      (Nat.lt_succ_self _)
  refine ⟨hs, m1, hp, hcl, hc1, hc2, hcov, ?_⟩
  intro fuel hf
  apply cleanup_open L p fuel self r h
  rw [drain_fuel_irrelevant p _ fuel (self.mailbox_.active.length + 1)
    self.mailbox_.close hf (Nat.lt_succ_self _)]
  exact hd _ _

theorem unregister_and_cleanup_done (t : monitorable_actor) (r r2 : error) :
    ((t.unregister_and_cleanup r).1.unregister_and_cleanup r2)
      = ((t.unregister_and_cleanup r).1, []) := by
  obtain ⟨ad, at_, fs, cu, rg⟩ := t
  cases cu <;> cases rg <;>
    simp [monitorable_actor.unregister_and_cleanup, monitorable_actor.cleanup,
      monitorable_actor.unregister_from_system]

theorem unregister_and_cleanup_live (t : monitorable_actor) (r : error)
    (hreg : t.is_registered_flag = true) (hlive : t.is_cleaned_up_flag = false) :
    t.unregister_and_cleanup r
      = ({ t with attachables_ := [], fail_state_ := some r,
                  is_cleaned_up_flag := true, is_registered_flag := false },
          effect.unregistered t.address_
            :: (t.attachables_.map (fun a => effect.actor_exited a r)
              ++ [effect.fail_state_recorded r])) := by
  obtain ⟨ad, at_, fs, cu, rg⟩ := t
  simp only at hreg hlive
  subst hreg hlive
  simp [monitorable_actor.unregister_and_cleanup, monitorable_actor.cleanup,
    monitorable_actor.unregister_from_system]

/-- C4: on an actor with an open mailbox whose queued envelopes are each
covered by one round of credit, `cleanup(reason)` returns for every fuel above
the number of queued envelopes, closes the mailbox, hands every envelope of
the active queues to the bouncer exactly once (`handled` is a permutation of
the queue contents), produces exactly one bounce notification per request
envelope, addressed to its sender with the response form of its id and
carrying `reason`, and no other bounce; the active queues are empty
afterwards. -/
theorem cleanup_bounces_queued_requests (L : id_layout) (p : mailbox_policy)
    (self : local_actor) (reason : error)
    (hopen : self.mailbox_.closed_ = false) (hcov : p.covers self.mailbox_) :
    ∃ (handled : List mailbox_element) (s1 : local_actor) (rest : List effect),
      handled.Perm self.mailbox_.active ∧
      (∀ fuel, self.mailbox_.active.length < fuel →
        self.cleanup L p fuel reason
          = some (true, s1,
              effect.mailbox_closed :: handled.flatMap (sync_request_bouncer L reason)
                ++ rest)) ∧
      (∀ x ∈ rest, x.is_bounce = false) ∧
      (handled.flatMap (sync_request_bouncer L reason)).Perm
        ((self.mailbox_.active.filter (fun e => e.mid.is_request L)).map
          (bounce_of L reason)) ∧
      (handled.flatMap (sync_request_bouncer L reason)).length
        = (self.mailbox_.active.filter (fun e => e.mid.is_request L)).length ∧
      s1.mailbox_.closed_ = true ∧
      s1.mailbox_.default_queue.list_ = [] ∧
      s1.mailbox_.high_priority_queue.list_ = [] := by
  obtain ⟨hs, m1, hp, hcl, _, _, hcov1, hrun⟩ := cleanup_open_result L p self reason hopen
  have hempty := hcov1 hcov
  rw [hempty, List.append_nil] at hp
  have hperm : (hs.flatMap (sync_request_bouncer L reason)).Perm
      ((self.mailbox_.active.filter (fun e => e.mid.is_request L)).map
        (bounce_of L reason)) := by
    rw [bouncer_outputs]
    exact (hp.filter _).map _
  have hlists : m1.default_queue.list_ = [] ∧ m1.high_priority_queue.list_ = [] := by
    simpa [mailbox.active] using hempty
  refine ⟨hs, _, _, hp, hrun, ?_, hperm, ?_, hcl, hlists.1, hlists.2⟩
  · intro x hx
    have := (unregister_and_cleanup_phase self.tomonitorable_actor reason).2 x hx
    cases x <;> simp [effect.phase] at this <;> rfl
  · simpa using hperm.length_eq

/-- Witness for C4: the busy actor is killed with reason 9. -/
theorem cleanup_bounces_queued_requests_witness :
    ∃ (handled : List mailbox_element) (s1 : local_actor) (rest : List effect),
      handled.Perm busy_actor.mailbox_.active ∧
      (∀ fuel, busy_actor.mailbox_.active.length < fuel →
        busy_actor.cleanup sample_layout sample_policy fuel ⟨9⟩
          = some (true, s1,
              effect.mailbox_closed
                :: handled.flatMap (sync_request_bouncer sample_layout ⟨9⟩) ++ rest)) ∧
      (∀ x ∈ rest, x.is_bounce = false) ∧
      (handled.flatMap (sync_request_bouncer sample_layout ⟨9⟩)).Perm
        ((busy_actor.mailbox_.active.filter
            (fun e => e.mid.is_request sample_layout)).map
          (bounce_of sample_layout ⟨9⟩)) ∧
      (handled.flatMap (sync_request_bouncer sample_layout ⟨9⟩)).length
        = (busy_actor.mailbox_.active.filter
            (fun e => e.mid.is_request sample_layout)).length ∧
      s1.mailbox_.closed_ = true ∧
      s1.mailbox_.default_queue.list_ = [] ∧
      s1.mailbox_.high_priority_queue.list_ = [] :=
  cleanup_bounces_queued_requests sample_layout sample_policy busy_actor ⟨9⟩
    (by decide) (by decide)

/-- C3: on a live actor (open mailbox, registered, not yet cleaned up)
`cleanup(r1)` returns, and a following `cleanup(r2)` is a no-op: it returns
with the same state and no effect, for every fuel.  So across the two calls
the mailbox is closed once, each consumed request envelope is bounced once,
the actor is unregistered once, every registration is fired once with `r1`
and the reason is recorded once; the recorded reason stays `r1`. -/
theorem cleanup_twice (L : id_layout) (p : mailbox_policy) (self : local_actor)
    (r1 r2 : error) (fuel : Nat)
    (hopen : self.mailbox_.closed_ = false)
    (hreg : self.is_registered_flag = true)
    (hlive : self.is_cleaned_up_flag = false)
    (hfuel : self.mailbox_.active.length < fuel) :
    ∃ (s1 : local_actor) (t1 : List effect) (hs : List mailbox_element),
      self.cleanup L p fuel r1 = some (true, s1, t1) ∧
      (∀ fuel2, s1.cleanup L p fuel2 r2 = some (true, s1, [])) ∧
      s1.fail_state_ = some r1 ∧
      t1.filter (fun x => x.phase == 0) = [effect.mailbox_closed] ∧
      (hs ++ s1.mailbox_.active).Perm self.mailbox_.active ∧
      t1.filter (fun x => x.phase == 1)
        = (hs.filter (fun e => e.mid.is_request L)).map (bounce_of L r1) ∧
      t1.filter (fun x => x.phase == 2) = [effect.unregistered self.address_] ∧
      t1.filter (fun x => x.phase == 3)
        = self.attachables_.map (fun a => effect.actor_exited a r1)
          ++ [effect.fail_state_recorded r1] := by
  obtain ⟨hs, m1, hp, hcl, _, _, _, hrun⟩ := cleanup_open_result L p self r1 hopen
  have hlv := unregister_and_cleanup_live self.tomonitorable_actor r1 hreg hlive
  refine ⟨_, _, hs, hrun fuel hfuel, ?_, ?_, ?_, hp, ?_, ?_, ?_⟩
  · intro fuel2
    rw [cleanup_closed L p fuel2 _ r2 hcl]
    simp only [unregister_and_cleanup_done]
  · simp [hlv]
  all_goals
    rw [hlv, bouncer_outputs]
    simp [List.filter_cons, List.filter_append, List.filter_map, effect.phase,
      bounce_of, Function.comp_def]

/-- Witness for C3: the busy actor is cleaned up with reason 9, then with
reason 4. -/
theorem cleanup_twice_witness :
    ∃ (s1 : local_actor) (t1 : List effect) (hs : List mailbox_element),
      busy_actor.cleanup sample_layout sample_policy 5 ⟨9⟩ = some (true, s1, t1) ∧
      (∀ fuel2, s1.cleanup sample_layout sample_policy fuel2 ⟨4⟩ = some (true, s1, [])) ∧
      s1.fail_state_ = some ⟨9⟩ ∧
      t1.filter (fun x => x.phase == 0) = [effect.mailbox_closed] ∧
      (hs ++ s1.mailbox_.active).Perm busy_actor.mailbox_.active ∧
      t1.filter (fun x => x.phase == 1)
        = (hs.filter (fun e => e.mid.is_request sample_layout)).map
            (bounce_of sample_layout ⟨9⟩) ∧
      t1.filter (fun x => x.phase == 2) = [effect.unregistered busy_actor.address_] ∧
      t1.filter (fun x => x.phase == 3)
        = busy_actor.attachables_.map (fun a => effect.actor_exited a ⟨9⟩)
          ++ [effect.fail_state_recorded ⟨9⟩] :=
  cleanup_twice sample_layout sample_policy busy_actor ⟨9⟩ ⟨4⟩ 5
    (by decide) (by decide) (by decide) (by decide)

/-- C5, evaluated at the failing input: a request envelope put into the
cache of an otherwise idle actor is not handed to the bouncer by `cleanup`;
the run produces no bounce notification and the envelope is still in the
cache afterwards, whatever the fuel. -/
theorem cleanup_leaves_cached_request :
    cached_actor.mailbox_.default_queue.cache_ = [sample_request] ∧
    sample_request.mid.is_request sample_layout = true ∧
    (cached_actor.cleanup sample_layout sample_policy 1 ⟨9⟩).map (fun r => r.2.2)
      = some [effect.mailbox_closed, effect.unregistered 7,
          effect.fail_state_recorded ⟨9⟩] ∧
    (cached_actor.cleanup sample_layout sample_policy 1 ⟨9⟩).map
        (fun r => r.2.1.mailbox_.default_queue.cache_) = some [sample_request] ∧
    (cached_actor.cleanup sample_layout sample_policy 1 ⟨9⟩).map
        (fun r => r.2.1.mailbox_.closed_) = some true ∧
    cached_actor.cleanup sample_layout sample_policy 1000 ⟨9⟩
      = cached_actor.cleanup sample_layout sample_policy 1 ⟨9⟩ := by
  decide

/-- C6: every execution of `cleanup(reason)` that is given fuel above the
number of queued envelopes returns, and its effects are ordered by step:
first the closing of the mailbox, then the bounces of the drain loop, then
the unregistration, and only then the firing of the registrations and the
recording of the reason.  The mailbox is closed at the end, was closed by
this call unless it was closed before, and the effects of the last step are
those of `monitorable_actor::cleanup`. -/
theorem cleanup_effect_order (L : id_layout) (p : mailbox_policy) (self : local_actor)
    (reason : error) (fuel : Nat) (hfuel : self.mailbox_.active.length < fuel) :
    ∃ (s1 : local_actor) (t : List effect),
      self.cleanup L p fuel reason = some (true, s1, t) ∧
      t.Pairwise (fun a b => a.phase ≤ b.phase) ∧
      (∀ x ∈ t, x.phase ≤ 3) ∧
      s1.mailbox_.closed_ = true ∧
      t.filter (fun x => x.phase == 0)
        = (if self.mailbox_.closed_ then [] else [effect.mailbox_closed]) ∧
      t.filter (fun x => x.phase == 2)
        = (if self.is_registered_flag then [effect.unregistered self.address_] else []) ∧
      t.filter (fun x => x.phase == 3)
        = (if self.is_cleaned_up_flag then []
          else self.attachables_.map (fun a => effect.actor_exited a reason)
            ++ [effect.fail_state_recorded reason]) := by
  have hph := unregister_and_cleanup_phase self.tomonitorable_actor reason
  have htail : ∀ k : Nat,
      (self.tomonitorable_actor.unregister_and_cleanup reason).2.filter
          (fun x => x.phase == k)
        = (if k = 2 then
            (if self.is_registered_flag then [effect.unregistered self.address_] else [])
          else if k = 3 then
            (if self.is_cleaned_up_flag then []
              else self.attachables_.map (fun a => effect.actor_exited a reason)
                ++ [effect.fail_state_recorded reason])
          else []) := by
    intro k
    obtain ⟨⟨ad, at_, fs, cu, rg⟩, lr, mb⟩ := self
    have e2 : ((2 : Nat) == k) = decide (k = 2) := by
      by_cases h : k = 2
      · subst h; rfl
      · have : ¬ (2 = k) := fun h1 => h h1.symm
        simp [h, this]
    have e3 : ((3 : Nat) == k) = decide (k = 3) := by
      by_cases h : k = 3
      · subst h; rfl
      · have : ¬ (3 = k) := fun h1 => h h1.symm
        simp [h, this]
    cases cu <;> cases rg <;>
      by_cases h2 : k = 2 <;> by_cases h3 : k = 3 <;>
      simp [monitorable_actor.unregister_and_cleanup, monitorable_actor.cleanup,
        monitorable_actor.unregister_from_system, List.filter_cons, List.filter_append,
        List.filter_map, effect.phase, Function.comp_def, e2, e3, h2, h3]
  cases hcl : self.mailbox_.closed_ with
  | true =>
    refine ⟨_, _, cleanup_closed L p fuel self reason hcl, hph.1, ?_, hcl, ?_, ?_, ?_⟩
    · intro x hx; exact (hph.2 x hx).2
    · simpa using htail 0
    · simpa using htail 2
    · simpa using htail 3
  | false =>
    obtain ⟨hs, m1, _, hcl1, _, _, _, hrun⟩ := cleanup_open_result L p self reason hcl
    have hb := bouncer_phase L reason hs
    refine ⟨_, _, hrun fuel hfuel, ?_, ?_, hcl1, ?_, ?_, ?_⟩
    · rw [List.cons_append, List.pairwise_cons, List.pairwise_append]
      refine ⟨?_, ?_, hph.1, ?_⟩
      · intro x hx
        exact Nat.zero_le _
      · apply List.pairwise_of_forall_mem_list
        intro a ha b hb1
        rw [(hb a ha).1, (hb b hb1).1]
      · intro a ha b hb1
        rw [(hb a ha).1]
        have := (hph.2 b hb1).1
        omega
    · intro x hx
      rw [List.cons_append, List.mem_cons, List.mem_append] at hx
      rcases hx with rfl | hx | hx
      · decide
      · rw [(hb x hx).1]; decide
      · exact (hph.2 x hx).2
    all_goals
      rw [List.cons_append, List.filter_cons, List.filter_append, htail, bouncer_outputs]
      simp [List.filter_map, effect.phase, bounce_of, Function.comp_def]

/-- Witness for C6: the busy actor is cleaned up with reason 9. -/
theorem cleanup_effect_order_witness :
    ∃ (s1 : local_actor) (t : List effect),
      busy_actor.cleanup sample_layout sample_policy 5 ⟨9⟩ = some (true, s1, t) ∧
      t.Pairwise (fun a b => a.phase ≤ b.phase) ∧
      (∀ x ∈ t, x.phase ≤ 3) ∧
      s1.mailbox_.closed_ = true ∧
      t.filter (fun x => x.phase == 0)
        = (if busy_actor.mailbox_.closed_ then [] else [effect.mailbox_closed]) ∧
      t.filter (fun x => x.phase == 2)
        = (if busy_actor.is_registered_flag then [effect.unregistered busy_actor.address_]
          else []) ∧
      t.filter (fun x => x.phase == 3)
        = (if busy_actor.is_cleaned_up_flag then []
          else busy_actor.attachables_.map (fun a => effect.actor_exited a ⟨9⟩)
            ++ [effect.fail_state_recorded ⟨9⟩]) :=
  cleanup_effect_order sample_layout sample_policy busy_actor ⟨9⟩ 5 (by decide)

end caf
